import Mathlib

/-!
# Verification of the Game of Life core (src/main.rs)

Shallow embedding of the simulation core of the repository: the `GameOfLife`
struct, its constructors, cell accessors, neighbor counting, the generation
step, and the pattern-seeding utilities, together with proofs of the
specification claims about them.

Conventions of the embedding:
* Rust `usize` values are modelled as `Nat`; `u8` cell states as `Nat`
  (the buffers only ever hold 0 or 1, and neighbor counts never exceed 8,
  so no wrap-around of `u8` can occur).
* `Vec<u8>` buffers are modelled as `List Nat`.
* An indexing read `self.curr[i]` that the source performs only at indices
  that are in range whenever the buffer-length invariant (`WF` below) holds
  is modelled as `List.getD _ i 0`; the public `is_alive`, whose index is
  *not* known to be in range, is modelled partially (`Option Bool`, with
  `none` for the out-of-bounds panic).
* An indexing write `self.buf[i] = v` is modelled as `List.set`, which is
  a no-op out of range exactly where the source would panic; all writes the
  source performs are in range under `WF`.
* `rem_euclid` on `isize` is Lean's `Int.emod`, which agrees with it for
  positive moduli.
* The random number generator consumed by `randomize` is abstracted as an
  oracle `draw : Nat → Bool` giving, for each cell index, whether that
  cell's fresh draw `rng.gen::<f32>()` was below `prob_alive`.
-/

structure GameOfLife where
  w : Nat
  h : Nat
  curr : List Nat
  next : List Nat
  paused : Bool
  step_once : Bool
  delay_ms : Nat
deriving DecidableEq

namespace GameOfLife

/-- `GameOfLife::new`: both buffers are `vec![0; w * h]`. -/
def new (w h : Nat) : GameOfLife :=
  { w := w, h := h,
    curr := List.replicate (w * h) 0,
    next := List.replicate (w * h) 0,
    paused := false, step_once := false, delay_ms := 100 }

/-- `GameOfLife::idx`: row-major index `y * w + x`. -/
def idx (g : GameOfLife) (x y : Nat) : Nat := y * g.w + x

/-- `GameOfLife::set_alive`: bounds-checked write of 1 into `curr`. -/
def set_alive (g : GameOfLife) (x y : Nat) : GameOfLife :=
  if x < g.w ∧ y < g.h then { g with curr := g.curr.set (g.idx x y) 1 } else g

/-- `GameOfLife::set_dead`: bounds-checked write of 0 into `curr`. -/
def set_dead (g : GameOfLife) (x y : Nat) : GameOfLife :=
  if x < g.w ∧ y < g.h then { g with curr := g.curr.set (g.idx x y) 0 } else g

/-- `GameOfLife::is_alive`: `self.curr[self.idx(x, y)] == 1`, with *no*
bounds check: the partiality of the slice-indexing panic is made explicit,
`none` standing for the panic. -/
def is_alive (g : GameOfLife) (x y : Nat) : Option Bool :=
  if g.idx x y < g.curr.length then some (g.curr.getD (g.idx x y) 0 == 1) else none

/-- `GameOfLife::clear`: `fill(0)` on both buffers (lengths unchanged). -/
def clear (g : GameOfLife) : GameOfLife :=
  { g with curr := List.replicate g.curr.length 0,
           next := List.replicate g.next.length 0 }

/-- `GameOfLife::randomize`: overwrites every cell of `curr` with a fresh
Bernoulli draw; the draws are abstracted as the oracle `draw`. -/
def randomize (g : GameOfLife) (draw : Nat → Bool) : GameOfLife :=
  { g with curr := g.curr.mapIdx (fun i _ => if draw i then 1 else 0) }

/-- `GameOfLife::live_neighbors`: the two nested loops over
`[-1, 0, 1]`, skipping `(0, 0)`, wrapping each coordinate with
`rem_euclid` and summing the `u8` cell values. -/
def live_neighbors (g : GameOfLife) (x y : Nat) : Nat :=
  ([-1, 0, 1] : List Int).foldl (fun count dy =>
    ([-1, 0, 1] : List Int).foldl (fun count dx =>
      if dx = 0 ∧ dy = 0 then count
      else
        count + g.curr.getD
          (g.idx ((((x : Int) + dx).emod (g.w : Int)).toNat)
                 ((((y : Int) + dy).emod (g.h : Int)).toNat)) 0) count) 0

/-- The `match (alive, n)` of `GameOfLife::step`, with the source's guard
order: underpopulation, survival, overpopulation, reproduction, default. -/
def nextState (alive : Bool) (n : Nat) : Nat :=
  if alive ∧ n < 2 then 0
  else if alive ∧ (n = 2 ∨ n = 3) then 1
  else if alive ∧ 3 < n then 0
  else if ¬alive ∧ n = 3 then 1
  else 0

/-- The double loop of `GameOfLife::step` writing the next state of every
cell into the scratch buffer `next` (reads come from `curr` only). -/
def stepNext (g : GameOfLife) : List Nat :=
  (List.range g.h).foldl (fun buf y =>
    (List.range g.w).foldl (fun buf x =>
      buf.set (g.idx x y)
        (nextState (g.curr.getD (g.idx x y) 0 == 1) (g.live_neighbors x y))) buf)
    g.next

/-- `GameOfLife::step`: fill the scratch buffer, then
`std::mem::swap(&mut self.curr, &mut self.next)`. -/
def step (g : GameOfLife) : GameOfLife :=
  { g with curr := g.stepNext, next := g.curr }

/-- `GameOfLife::spawn`: set `((ox+dx) % w, (oy+dy) % h)` alive for each
relative offset. -/
def spawn (g : GameOfLife) (rel : List (Nat × Nat)) (ox oy : Nat) : GameOfLife :=
  rel.foldl (fun g d =>
    { g with curr := g.curr.set (g.idx ((ox + d.1) % g.w) ((oy + d.2) % g.h)) 1 }) g

/-- `GameOfLife::spawn_pattern_ascii`: the source iterates
`pattern.lines()` (the rows) and `line.chars()` (the characters of a row),
so the string argument is modelled as its list of rows, each a list of
characters; `enum` supplies the `enumerate()` indices `dy` and `dx`. -/
def spawn_pattern_ascii (g : GameOfLife) (ox oy : Nat)
    (pattern : List (List Char)) (alive : Char) : GameOfLife :=
  pattern.enum.foldl (fun g row =>
    row.2.enum.foldl (fun g ch =>
      if ch.2 = alive then
        { g with curr := g.curr.set (g.idx ((ox + ch.1) % g.w) ((oy + row.1) % g.h)) 1 }
      else g) g) g

/-- `GameOfLife::spawn_block`. -/
def spawn_block (g : GameOfLife) (x y : Nat) : GameOfLife :=
  g.spawn [(0, 0), (1, 0), (0, 1), (1, 1)] x y

/-- `GameOfLife::spawn_beehive`. -/
def spawn_beehive (g : GameOfLife) (x y : Nat) : GameOfLife :=
  g.spawn [(1, 0), (2, 0), (0, 1), (3, 1), (1, 2), (2, 2)] x y

/-- `GameOfLife::spawn_loaf`. -/
def spawn_loaf (g : GameOfLife) (x y : Nat) : GameOfLife :=
  g.spawn [(1, 0), (2, 0), (0, 1), (3, 1), (1, 2), (3, 2), (2, 3)] x y

/-- `GameOfLife::spawn_boat`. -/
def spawn_boat (g : GameOfLife) (x y : Nat) : GameOfLife :=
  g.spawn [(0, 0), (1, 0), (0, 1), (2, 1), (1, 2)] x y

/-- `GameOfLife::spawn_tub`. -/
def spawn_tub (g : GameOfLife) (x y : Nat) : GameOfLife :=
  g.spawn [(1, 0), (0, 1), (2, 1), (1, 2)] x y

/-- `GameOfLife::spawn_blinker`. -/
def spawn_blinker (g : GameOfLife) (x y : Nat) : GameOfLife :=
  g.spawn [(0, 0), (1, 0), (2, 0)] x y

/-- `GameOfLife::spawn_toad`. -/
def spawn_toad (g : GameOfLife) (x y : Nat) : GameOfLife :=
  g.spawn [(1, 0), (2, 0), (3, 0), (0, 1), (1, 1), (2, 1)] x y

/-- `GameOfLife::spawn_beacon`. -/
def spawn_beacon (g : GameOfLife) (x y : Nat) : GameOfLife :=
  g.spawn [(0, 0), (1, 0), (0, 1), (1, 1), (2, 2), (3, 2), (2, 3), (3, 3)] x y

/-- `GameOfLife::spawn_pulsar`. -/
def spawn_pulsar (g : GameOfLife) (x y : Nat) : GameOfLife :=
  g.spawn
    [(2, 0), (3, 0), (4, 0), (8, 0), (9, 0), (10, 0),
     (0, 2), (5, 2), (7, 2), (12, 2),
     (0, 3), (5, 3), (7, 3), (12, 3),
     (0, 4), (5, 4), (7, 4), (12, 4),
     (2, 5), (3, 5), (4, 5), (8, 5), (9, 5), (10, 5),
     (2, 7), (3, 7), (4, 7), (8, 7), (9, 7), (10, 7),
     (0, 8), (5, 8), (7, 8), (12, 8),
     (0, 9), (5, 9), (7, 9), (12, 9),
     (0, 10), (5, 10), (7, 10), (12, 10),
     (2, 12), (3, 12), (4, 12), (8, 12), (9, 12), (10, 12)] x y

/-- `GameOfLife::spawn_pentadecathlon`. -/
def spawn_pentadecathlon (g : GameOfLife) (x y : Nat) : GameOfLife :=
  g.spawn
    [(1, 0), (2, 0), (1, 1), (2, 1), (1, 3), (2, 3), (1, 4), (2, 4),
     (1, 5), (2, 5), (1, 6), (2, 6), (1, 8), (2, 8), (1, 9), (2, 9)] x y

/-- `GameOfLife::spawn_glider`. -/
def spawn_glider (g : GameOfLife) (x y : Nat) : GameOfLife :=
  g.spawn [(1, 0), (2, 1), (0, 2), (1, 2), (2, 2)] x y

/-- `GameOfLife::spawn_lwss`. -/
def spawn_lwss (g : GameOfLife) (x y : Nat) : GameOfLife :=
  g.spawn [(1, 0), (4, 0), (0, 1), (0, 2), (4, 2), (0, 3), (1, 3), (2, 3), (3, 3)] x y

/-- `GameOfLife::spawn_mwss` (rows of the source's ASCII pattern). -/
def spawn_mwss (g : GameOfLife) (x y : Nat) : GameOfLife :=
  g.spawn_pattern_ascii x y
    [ "..####.".toList, ".#....#".toList, "#.....#".toList,
      "#....#.".toList, ".#####.".toList ] '#'

/-- `GameOfLife::spawn_hwss` (rows of the source's ASCII pattern). -/
def spawn_hwss (g : GameOfLife) (x y : Nat) : GameOfLife :=
  g.spawn_pattern_ascii x y
    [ "..#####.".toList, ".#.....#".toList, "#......#".toList,
      "#.....#.".toList, ".######.".toList ] '#'

/-- `GameOfLife::spawn_r_pentomino` (rows of the source's ASCII pattern). -/
def spawn_r_pentomino (g : GameOfLife) (x y : Nat) : GameOfLife :=
  g.spawn_pattern_ascii x y [ ".##".toList, "##.".toList, ".#.".toList ] '#'

/-- `GameOfLife::spawn_diehard` (rows of the source's ASCII pattern). -/
def spawn_diehard (g : GameOfLife) (x y : Nat) : GameOfLife :=
  g.spawn_pattern_ascii x y
    [ "......#.".toList, "##......".toList, ".#...###".toList ] '#'

/-- `GameOfLife::spawn_acorn` (rows of the source's ASCII pattern). -/
def spawn_acorn (g : GameOfLife) (x y : Nat) : GameOfLife :=
  g.spawn_pattern_ascii x y
    [ ".#.....".toList, "...#...".toList, "##..###".toList ] '#'

/-! ## Verification infrastructure -/

/-- The buffer-length invariant: both buffers have exactly `w * h` cells. -/
def WF (g : GameOfLife) : Prop :=
  g.curr.length = g.w * g.h ∧ g.next.length = g.w * g.h

instance (g : GameOfLife) : Decidable g.WF := by
  unfold WF; infer_instance

/-- Read of cell `(x, y)` in the current buffer (a total rendering of the
in-range reads the source performs). -/
def cellAt (g : GameOfLife) (x y : Nat) : Nat := g.curr.getD (g.idx x y) 0

/-- Indicator buffer value of a finite set of live cells. -/
def ind (s : List (Nat × Nat)) (x y : Nat) : Nat := if (x, y) ∈ s then 1 else 0

/-- Wrapped decrement: the `Nat`-level form of `(x - 1).rem_euclid n`. -/
def wsub (x n : Nat) : Nat := (x + n - 1) % n

/-- Wrapped increment: the `Nat`-level form of `(x + 1).rem_euclid n`. -/
def wadd (x n : Nat) : Nat := (x + 1) % n

/-- The set of `(dx, dy)` offsets of the live characters of an ASCII
pattern, in the iteration order of `spawn_pattern_ascii`. -/
def asciiOffsets (pattern : List (List Char)) (alive : Char) : List (Nat × Nat) :=
  (pattern.enum.map (fun row =>
    ((row.2.enum.filter (fun ch => ch.2 == alive)).map (fun ch => (ch.1, row.1))))).flatten

/-! ## Basic list and index lemmas -/

lemma getD_set_self (l : List Nat) (i v : Nat) (h : i < l.length) :
    (l.set i v).getD i 0 = v := by
  simp [List.getD, List.getElem?_set, h]

lemma getD_set_ne (l : List Nat) (i j v : Nat) (h : i ≠ j) :
    (l.set i v).getD j 0 = l.getD j 0 := by
  simp [List.getD, List.getElem?_set, h]

lemma getD_replicate (n i : Nat) : (List.replicate n (0 : Nat)).getD i 0 = 0 := by
  rcases Nat.lt_or_ge i n with h | h
  · simp [List.getD, List.getElem?_replicate, h]
  · rw [List.getD_eq_default]
    simpa using h

lemma idx_lt_area (g : GameOfLife) {x y : Nat} (hx : x < g.w) (hy : y < g.h) :
    g.idx x y < g.w * g.h := by
  unfold idx
  calc y * g.w + x < (y + 1) * g.w := by
        rw [Nat.add_mul, Nat.one_mul]; omega
    _ ≤ g.h * g.w := Nat.mul_le_mul_right _ (by omega)
    _ = g.w * g.h := Nat.mul_comm _ _

lemma idx_inj (g : GameOfLife) {x y x' y' : Nat} (hx : x < g.w) (hx' : x' < g.w)
    (h : g.idx x y = g.idx x' y') : x = x' ∧ y = y' := by
  have hw : 0 < g.w := by omega
  have hxx : x = x' := by
    have h1 := congrArg (· % g.w) h
    simp only [idx] at h1
    rwa [Nat.add_comm (y * g.w) x, Nat.add_comm (y' * g.w) x',
      Nat.add_mul_mod_self_right, Nat.add_mul_mod_self_right,
      Nat.mod_eq_of_lt hx, Nat.mod_eq_of_lt hx'] at h1
  refine ⟨hxx, ?_⟩
  unfold idx at h
  rw [hxx] at h
  have h2 : y * g.w = y' * g.w := by omega
  exact Nat.eq_of_mul_eq_mul_right hw h2

/-- Row-major decomposition: every index below `w * h` is `y * w + x` for a
unique in-range `(x, y)`. -/
lemma eq_of_cellIdx (w h : Nat) (l1 l2 : List Nat) (h1 : l1.length = w * h)
    (h2 : l2.length = w * h)
    (hp : ∀ x y, x < w → y < h → l1.getD (y * w + x) 0 = l2.getD (y * w + x) 0) :
    l1 = l2 := by
  apply List.ext_getElem (by omega)
  intro i hi1 hi2
  have hiwh : i < w * h := by omega
  have hw : 0 < w := by
    rcases Nat.eq_zero_or_pos w with h0 | h0
    · subst h0; simp at hiwh
    · exact h0
  have hx : i % w < w := Nat.mod_lt _ hw
  have hy : i / w < h := by
    rw [Nat.div_lt_iff_lt_mul hw, Nat.mul_comm]
    exact hiwh
  have hrec : (i / w) * w + i % w = i := by
    rw [Nat.mul_comm]
    exact Nat.div_add_mod i w
  have hpt := hp (i % w) (i / w) hx hy
  rw [hrec, List.getD_eq_getElem l1 0 hi1, List.getD_eq_getElem l2 0 hi2] at hpt
  exact hpt

/-! ## Euclidean wrap lemmas -/

lemma emod_toNat_zero {x : Nat} (n : Nat) (hx : x < n) :
    (((x : Int) + 0).emod (n : Int)).toNat = x := by
  rw [Int.add_zero]
  have : ((x : Int)).emod (n : Int) = ((x % n : Nat) : Int) := (Int.ofNat_emod x n).symm
  rw [this, Int.toNat_ofNat, Nat.mod_eq_of_lt hx]

lemma emod_toNat_add_one (x n : Nat) :
    (((x : Int) + 1).emod (n : Int)).toNat = wadd x n := by
  have h1 : ((x : Int) + 1) = (((x + 1 : Nat)) : Int) := by omega
  rw [h1]
  have : (((x + 1 : Nat)) : Int).emod (n : Int) = (((x + 1) % n : Nat) : Int) :=
    (Int.ofNat_emod (x + 1) n).symm
  rw [this, Int.toNat_ofNat, wadd]

lemma emod_toNat_sub_one (x n : Nat) (hn : 0 < n) :
    (((x : Int) + (-1)).emod (n : Int)).toNat = wsub x n := by
  have h1 : ((x : Int) + (-1)) = (((x + n - 1 : Nat)) : Int) + (n : Int) * (-1) := by omega
  rw [h1]
  have h2 : ((((x + n - 1 : Nat)) : Int) + (n : Int) * (-1)).emod (n : Int)
      = (((x + n - 1 : Nat)) : Int).emod (n : Int) := Int.add_mul_emod_self_left _ _ _
  rw [h2]
  have h3 : (((x + n - 1 : Nat)) : Int).emod (n : Int) = (((x + n - 1) % n : Nat) : Int) :=
    (Int.ofNat_emod (x + n - 1) n).symm
  rw [h3, Int.toNat_ofNat, wsub]

lemma wsub_lt (x : Nat) {n : Nat} (hn : 0 < n) : wsub x n < n := Nat.mod_lt _ hn

lemma wadd_lt (x : Nat) {n : Nat} (hn : 0 < n) : wadd x n < n := Nat.mod_lt _ hn

lemma wsub_spec (x n : Nat) (hx : x < n) :
    wsub x n = if x = 0 then n - 1 else x - 1 := by
  unfold wsub
  rcases x with _ | x
  · simp [Nat.mod_eq_of_lt (show n - 1 < n by omega)]
  · have h1 : x + 1 + n - 1 = x + n := by omega
    rw [h1, Nat.add_mod_right, Nat.mod_eq_of_lt (by omega)]
    simp

lemma wadd_spec (x n : Nat) (hx : x < n) :
    wadd x n = if x + 1 = n then 0 else x + 1 := by
  unfold wadd
  rcases Nat.lt_or_ge (x + 1) n with h | h
  · rw [Nat.mod_eq_of_lt h, if_neg (by omega)]
  · have h1 : x + 1 = n := by omega
    rw [h1, Nat.mod_self]
    simp

/-! ## The generation step writes each cell of the scratch buffer once -/

lemma foldl_set_length (ks : List Nat) (ix f : Nat → Nat) (buf : List Nat) :
    (ks.foldl (fun b k => b.set (ix k) (f k)) buf).length = buf.length := by
  induction ks generalizing buf with
  | nil => rfl
  | cons k tl ih => rw [List.foldl_cons, ih, List.length_set]

lemma foldl_set_getD_ne (ks : List Nat) (ix f : Nat → Nat) (buf : List Nat)
    (j : Nat) (hne : ∀ k ∈ ks, ix k ≠ j) :
    (ks.foldl (fun b k => b.set (ix k) (f k)) buf).getD j 0 = buf.getD j 0 := by
  induction ks generalizing buf with
  | nil => rfl
  | cons k tl ih =>
      rw [List.foldl_cons, ih _ (fun k' hk' => hne k' (List.mem_cons_of_mem _ hk')),
        getD_set_ne _ _ _ _ (hne k (List.mem_cons_self _ _))]

lemma foldl_set_getD_hit (ks : List Nat) (ix f : Nat → Nat) (buf : List Nat)
    (k0 : Nat) (hk0 : k0 ∈ ks) (hj : ix k0 < buf.length)
    (huniq : ∀ k ∈ ks, ix k = ix k0 → k = k0) :
    (ks.foldl (fun b k => b.set (ix k) (f k)) buf).getD (ix k0) 0 = f k0 := by
  induction ks generalizing buf with
  | nil => cases hk0
  | cons k tl ih =>
      rw [List.foldl_cons]
      by_cases hmem : k0 ∈ tl
      · exact ih _ hmem (by rw [List.length_set]; exact hj)
          (fun k' hk' h' => huniq k' (List.mem_cons_of_mem _ hk') h')
      · have hk : k0 = k := by
          rcases List.mem_cons.mp hk0 with h' | h'
          · exact h'
          · exact absurd h' hmem
        subst hk
        rw [foldl_set_getD_ne tl ix f _ (ix k0) ?_]
        · exact getD_set_self _ _ _ hj
        · intro k' hk' hcontra
          exact hmem ((huniq k' (List.mem_cons_of_mem _ hk') hcontra) ▸ hk')

lemma stepRows_length (g : GameOfLife) (val : Nat → Nat → Nat) (rows : List Nat)
    (buf : List Nat) :
    (rows.foldl (fun buf y' => (List.range g.w).foldl
        (fun b x' => b.set (g.idx x' y') (val x' y')) buf) buf).length = buf.length := by
  induction rows generalizing buf with
  | nil => rfl
  | cons r tl ih => rw [List.foldl_cons, ih, foldl_set_length]

lemma stepRows_getD (g : GameOfLife) (val : Nat → Nat → Nat) (rows : List Nat)
    (buf : List Nat) (x y : Nat) (hx : x < g.w) (hj : g.idx x y < buf.length) :
    (rows.foldl (fun buf y' => (List.range g.w).foldl
        (fun b x' => b.set (g.idx x' y') (val x' y')) buf) buf).getD (g.idx x y) 0 =
      if y ∈ rows then val x y else buf.getD (g.idx x y) 0 := by
  induction rows generalizing buf with
  | nil => simp
  | cons r tl ih =>
      rw [List.foldl_cons, ih _ (by rw [foldl_set_length]; exact hj)]
      by_cases hmem : y ∈ tl
      · rw [if_pos hmem, if_pos (List.mem_cons_of_mem _ hmem)]
      · rw [if_neg hmem]
        by_cases hr : r = y
        · subst hr
          rw [if_pos (List.mem_cons_self _ _)]
          have hhit := foldl_set_getD_hit (List.range g.w) (fun x' => g.idx x' r)
            (fun x' => val x' r) buf x (List.mem_range.mpr hx) hj ?_
          · exact hhit
          · intro k hk h'
            exact ((g.idx_inj (List.mem_range.mp hk) hx h').1)
        · have hne : ∀ k ∈ List.range g.w, g.idx k r ≠ g.idx x y := by
            intro k hk hcontra
            exact hr ((g.idx_inj (List.mem_range.mp hk) hx hcontra).2)
          have hnotin : y ∉ r :: tl := by
            intro hcon
            rcases List.mem_cons.mp hcon with h' | h'
            · exact hr h'.symm
            · exact hmem h'
          rw [foldl_set_getD_ne (List.range g.w) (fun x' => g.idx x' r)
            (fun x' => val x' r) buf _ hne]
          rw [if_neg hnotin]

lemma stepNext_length (g : GameOfLife) : g.stepNext.length = g.next.length := by
  unfold stepNext
  exact stepRows_length g _ _ _

lemma stepNext_getD (g : GameOfLife) (x y : Nat) (hx : x < g.w) (hy : y < g.h)
    (hn : g.idx x y < g.next.length) :
    g.stepNext.getD (g.idx x y) 0 =
      nextState (g.curr.getD (g.idx x y) 0 == 1) (g.live_neighbors x y) := by
  unfold stepNext
  rw [stepRows_getD g
    (fun x' y' => nextState (g.curr.getD (g.idx x' y') 0 == 1) (g.live_neighbors x' y'))
    (List.range g.h) g.next x y hx hn]
  rw [if_pos (List.mem_range.mpr hy)]

/-- Pointwise content of the current buffer after `step`: the source's rule
applied to the pre-step snapshot. -/
lemma cellAt_step (g : GameOfLife) (hg : g.WF) {x y : Nat} (hx : x < g.w) (hy : y < g.h) :
    cellAt g.step x y = nextState (cellAt g x y == 1) (g.live_neighbors x y) := by
  have hn : g.idx x y < g.next.length := by
    rw [hg.2]; exact g.idx_lt_area hx hy
  exact stepNext_getD g x y hx hy hn

lemma step_w (g : GameOfLife) : g.step.w = g.w := rfl

lemma step_h (g : GameOfLife) : g.step.h = g.h := rfl

lemma step_WF (g : GameOfLife) (hg : g.WF) : g.step.WF := by
  refine ⟨?_, ?_⟩
  · show g.stepNext.length = g.w * g.h
    rw [stepNext_length]; exact hg.2
  · exact hg.1

/-! ## The neighbor count as an explicit 8-cell sum -/

/-- Unfolding the two loops of `live_neighbors`: the count is the sum of
the 8 cells around `(x, y)`, each coordinate wrapped toroidally (written at
the `Nat` level via `wsub`/`wadd`). -/
lemma live_neighbors_cells (g : GameOfLife) {x y : Nat} (hw : 0 < g.w) (hh : 0 < g.h)
    (hx : x < g.w) (hy : y < g.h) :
    g.live_neighbors x y =
      cellAt g (wsub x g.w) (wsub y g.h) + cellAt g x (wsub y g.h) +
        cellAt g (wadd x g.w) (wsub y g.h) +
        cellAt g (wsub x g.w) y + cellAt g (wadd x g.w) y +
        cellAt g (wsub x g.w) (wadd y g.h) + cellAt g x (wadd y g.h) +
        cellAt g (wadd x g.w) (wadd y g.h) := by
  have e1 := emod_toNat_sub_one x g.w hw
  have e2 := emod_toNat_zero g.w hx
  have e3 := emod_toNat_add_one x g.w
  have e4 := emod_toNat_sub_one y g.h hh
  have e5 := emod_toNat_zero g.h hy
  have e6 := emod_toNat_add_one y g.h
  simp only [live_neighbors, List.foldl_cons, List.foldl_nil]
  rw [e1, e2, e3, e4, e5, e6]
  clear e1 e2 e3 e4 e5 e6
  simp only [cellAt]
  norm_num

/-! ## Pattern seeding -/

lemma spawn_cons (g : GameOfLife) (d : Nat × Nat) (tl : List (Nat × Nat)) (ox oy : Nat) :
    g.spawn (d :: tl) ox oy =
      GameOfLife.spawn
        { g with curr := g.curr.set (g.idx ((ox + d.1) % g.w) ((oy + d.2) % g.h)) 1 }
        tl ox oy := rfl

lemma spawn_w (g : GameOfLife) (rel : List (Nat × Nat)) (ox oy : Nat) :
    (g.spawn rel ox oy).w = g.w := by
  induction rel generalizing g with
  | nil => rfl
  | cons d tl ih => rw [spawn_cons, ih]

lemma spawn_h (g : GameOfLife) (rel : List (Nat × Nat)) (ox oy : Nat) :
    (g.spawn rel ox oy).h = g.h := by
  induction rel generalizing g with
  | nil => rfl
  | cons d tl ih => rw [spawn_cons, ih]

lemma spawn_next (g : GameOfLife) (rel : List (Nat × Nat)) (ox oy : Nat) :
    (g.spawn rel ox oy).next = g.next := by
  induction rel generalizing g with
  | nil => rfl
  | cons d tl ih => rw [spawn_cons, ih]

lemma spawn_curr_length (g : GameOfLife) (rel : List (Nat × Nat)) (ox oy : Nat) :
    (g.spawn rel ox oy).curr.length = g.curr.length := by
  induction rel generalizing g with
  | nil => rfl
  | cons d tl ih => rw [spawn_cons, ih, List.length_set]

lemma spawn_WF (g : GameOfLife) (hg : g.WF) (rel : List (Nat × Nat)) (ox oy : Nat) :
    (g.spawn rel ox oy).WF := by
  constructor
  · rw [spawn_curr_length, spawn_w, spawn_h]; exact hg.1
  · rw [spawn_next, spawn_w, spawn_h]; exact hg.2

/-- Pointwise effect of `spawn`: a cell targeted by some wrapped offset is
set alive, any other cell keeps its previous value. -/
lemma cellAt_spawn (g : GameOfLife) (rel : List (Nat × Nat)) (ox oy : Nat)
    (hw : 0 < g.w) (hh : 0 < g.h) (hc : g.curr.length = g.w * g.h)
    (x y : Nat) (hx : x < g.w) (hy : y < g.h) :
    cellAt (g.spawn rel ox oy) x y =
      if ∃ d ∈ rel, x = (ox + d.1) % g.w ∧ y = (oy + d.2) % g.h then 1
      else cellAt g x y := by
  induction rel generalizing g with
  | nil => simp [spawn]
  | cons d tl ih =>
      rw [spawn_cons]
      have htxw : (ox + d.1) % g.w < g.w := Nat.mod_lt _ hw
      have htyh : (oy + d.2) % g.h < g.h := Nat.mod_lt _ hh
      have ih' :
          cellAt (GameOfLife.spawn
              { g with curr := g.curr.set (g.idx ((ox + d.1) % g.w) ((oy + d.2) % g.h)) 1 }
              tl ox oy) x y =
            if ∃ d' ∈ tl, x = (ox + d'.1) % g.w ∧ y = (oy + d'.2) % g.h then 1
            else (g.curr.set (g.idx ((ox + d.1) % g.w) ((oy + d.2) % g.h)) 1).getD
              (g.idx x y) 0 :=
        ih _ hw hh
          (by show (g.curr.set (g.idx ((ox + d.1) % g.w) ((oy + d.2) % g.h)) 1).length
                = g.w * g.h
              rw [List.length_set]; exact hc) hx hy
      rw [ih']
      have hcell :
          (g.curr.set (g.idx ((ox + d.1) % g.w) ((oy + d.2) % g.h)) 1).getD (g.idx x y) 0 =
            if x = (ox + d.1) % g.w ∧ y = (oy + d.2) % g.h then 1 else cellAt g x y := by
        by_cases hd : x = (ox + d.1) % g.w ∧ y = (oy + d.2) % g.h
        · rw [if_pos hd, hd.1, hd.2]
          exact getD_set_self _ _ _ (by rw [hc]; exact g.idx_lt_area htxw htyh)
        · rw [if_neg hd]
          refine getD_set_ne _ _ _ _ (fun hcon => hd ?_)
          have h5 := g.idx_inj htxw hx hcon
          exact ⟨h5.1.symm, h5.2.symm⟩
      rw [hcell]
      by_cases h1 : ∃ d' ∈ tl, x = (ox + d'.1) % g.w ∧ y = (oy + d'.2) % g.h
      · rw [if_pos h1]
        obtain ⟨d', hd', hp⟩ := h1
        rw [if_pos (⟨d', List.mem_cons_of_mem _ hd', hp⟩ :
          ∃ d' ∈ d :: tl, x = (ox + d'.1) % g.w ∧ y = (oy + d'.2) % g.h)]
      · rw [if_neg h1]
        by_cases h2 : x = (ox + d.1) % g.w ∧ y = (oy + d.2) % g.h
        · rw [if_pos h2]
          rw [if_pos (⟨d, List.mem_cons_self _ _, h2⟩ :
            ∃ d' ∈ d :: tl, x = (ox + d'.1) % g.w ∧ y = (oy + d'.2) % g.h)]
        · rw [if_neg h2]
          rw [if_neg (fun hcon => ?_)]
          obtain ⟨d', hd', hp⟩ := hcon
          rcases List.mem_cons.mp hd' with h' | h'
          · exact h2 (h' ▸ hp)
          · exact h1 ⟨d', h', hp⟩

/-! ## ASCII patterns reduce to offset-list seeding -/

lemma foldl_filter_if {α β : Type} (p : α → Bool) (f : β → α → β) (b : β) (l : List α) :
    (l.filter p).foldl f b = l.foldl (fun b a => if p a then f b a else b) b := by
  induction l generalizing b with
  | nil => rfl
  | cons a tl ih =>
      by_cases h : p a = true
      · simp [List.filter_cons, h, ih]
      · simp [List.filter_cons, h, ih]

lemma spawn_pattern_ascii_eq_spawn (g : GameOfLife) (ox oy : Nat)
    (pattern : List (List Char)) (alive : Char) :
    g.spawn_pattern_ascii ox oy pattern alive =
      g.spawn (asciiOffsets pattern alive) ox oy := by
  unfold spawn_pattern_ascii spawn asciiOffsets
  simp only [List.foldl_flatten, List.foldl_map, foldl_filter_if, beq_iff_eq]

lemma mem_asciiOffsets (pattern : List (List Char)) (alive : Char) (d : Nat × Nat) :
    d ∈ asciiOffsets pattern alive ↔
      ∃ row ∈ pattern.enum, ∃ ch ∈ row.2.enum, ch.2 = alive ∧ d = (ch.1, row.1) := by
  simp only [asciiOffsets, List.mem_flatten, List.mem_map, List.mem_filter, beq_iff_eq]
  constructor
  · rintro ⟨l, ⟨row, hrow, hl⟩, hdl⟩
    subst hl
    rcases List.mem_map.mp hdl with ⟨ch, hch, hd⟩
    rcases List.mem_filter.mp hch with ⟨hch1, hch2⟩
    exact ⟨row, hrow, ch, hch1, by simpa using hch2, hd.symm⟩
  · rintro ⟨row, hrow, ch, hch, hc, hd⟩
    refine ⟨(row.2.enum.filter (fun ch => ch.2 == alive)).map (fun ch => (ch.1, row.1)),
      ⟨row, hrow, rfl⟩, ?_⟩
    exact List.mem_map.mpr ⟨ch, List.mem_filter.mpr ⟨hch, by simpa using hc⟩, hd.symm⟩

/-! ## Freshly constructed and cleared grids -/

lemma new_w (w h : Nat) : (new w h).w = w := rfl

lemma new_h (w h : Nat) : (new w h).h = h := rfl

lemma new_WF (w h : Nat) : (new w h).WF := by
  constructor <;> simp [new, WF]

lemma cellAt_new (w h x y : Nat) : cellAt (new w h) x y = 0 := getD_replicate _ _

lemma clear_WF (g : GameOfLife) (hg : g.WF) : g.clear.WF := by
  constructor <;> simp [clear, WF, hg.1, hg.2]

lemma cellAt_clear (g : GameOfLife) (x y : Nat) : cellAt g.clear x y = 0 :=
  getD_replicate _ _

/-! ## Shape preservation of the remaining mutators -/

lemma set_alive_WF (g : GameOfLife) (hg : g.WF) (x y : Nat) : (g.set_alive x y).WF := by
  unfold set_alive
  by_cases h : x < g.w ∧ y < g.h
  · rw [if_pos h]
    exact ⟨by rw [List.length_set]; exact hg.1, hg.2⟩
  · rw [if_neg h]; exact hg

lemma set_alive_w (g : GameOfLife) (x y : Nat) : (g.set_alive x y).w = g.w := by
  unfold set_alive
  by_cases h : x < g.w ∧ y < g.h
  · rw [if_pos h]
  · rw [if_neg h]

lemma set_alive_h (g : GameOfLife) (x y : Nat) : (g.set_alive x y).h = g.h := by
  unfold set_alive
  by_cases h : x < g.w ∧ y < g.h
  · rw [if_pos h]
  · rw [if_neg h]

lemma set_dead_WF (g : GameOfLife) (hg : g.WF) (x y : Nat) : (g.set_dead x y).WF := by
  unfold set_dead
  by_cases h : x < g.w ∧ y < g.h
  · rw [if_pos h]
    exact ⟨by rw [List.length_set]; exact hg.1, hg.2⟩
  · rw [if_neg h]; exact hg

lemma set_dead_w (g : GameOfLife) (x y : Nat) : (g.set_dead x y).w = g.w := by
  unfold set_dead
  by_cases h : x < g.w ∧ y < g.h
  · rw [if_pos h]
  · rw [if_neg h]

lemma set_dead_h (g : GameOfLife) (x y : Nat) : (g.set_dead x y).h = g.h := by
  unfold set_dead
  by_cases h : x < g.w ∧ y < g.h
  · rw [if_pos h]
  · rw [if_neg h]

lemma randomize_WF (g : GameOfLife) (hg : g.WF) (draw : Nat → Bool) :
    (g.randomize draw).WF := by
  refine ⟨?_, hg.2⟩
  show (g.curr.mapIdx _).length = g.w * g.h
  rw [List.length_mapIdx]
  exact hg.1

lemma spawn_pattern_ascii_WF (g : GameOfLife) (hg : g.WF) (ox oy : Nat)
    (pattern : List (List Char)) (c : Char) :
    (g.spawn_pattern_ascii ox oy pattern c).WF := by
  rw [spawn_pattern_ascii_eq_spawn]
  exact spawn_WF g hg _ ox oy

lemma spawn_pattern_ascii_w (g : GameOfLife) (ox oy : Nat)
    (pattern : List (List Char)) (c : Char) :
    (g.spawn_pattern_ascii ox oy pattern c).w = g.w := by
  rw [spawn_pattern_ascii_eq_spawn, spawn_w]

lemma spawn_pattern_ascii_h (g : GameOfLife) (ox oy : Nat)
    (pattern : List (List Char)) (c : Char) :
    (g.spawn_pattern_ascii ox oy pattern c).h = g.h := by
  rw [spawn_pattern_ascii_eq_spawn, spawn_h]

/-- `live_neighbors` depends only on the dimensions and the current buffer. -/
lemma live_neighbors_congr (g1 g2 : GameOfLife) (hw : g1.w = g2.w) (hh : g1.h = g2.h)
    (hc : g1.curr = g2.curr) (x y : Nat) :
    g1.live_neighbors x y = g2.live_neighbors x y := by
  unfold live_neighbors idx
  rw [hw, hh, hc]

/-! ## Stepping an indicator configuration (towards the blinker claim) -/

lemma nextState_true (n : Nat) :
    nextState true n = if n = 2 ∨ n = 3 then 1 else 0 := by
  unfold nextState
  split_ifs <;> simp_all
  omega

lemma nextState_false (n : Nat) :
    nextState false n = if n = 3 then 1 else 0 := by
  unfold nextState
  split_ifs <;> simp_all

/-- The step rule split on the pre-step cell value. -/
lemma cellAt_step_rule (g : GameOfLife) (hg : g.WF) {x y : Nat}
    (hx : x < g.w) (hy : y < g.h) :
    cellAt g.step x y =
      if cellAt g x y = 1 then
        (if g.live_neighbors x y = 2 ∨ g.live_neighbors x y = 3 then 1 else 0)
      else (if g.live_neighbors x y = 3 then 1 else 0) := by
  rw [cellAt_step g hg hx hy]
  by_cases h : cellAt g x y = 1
  · rw [if_pos h, h]
    exact nextState_true _
  · rw [if_neg h]
    have hb : (cellAt g x y == 1) = false := by simp [h]
    rw [hb]
    exact nextState_false _

lemma ind_horiz_eq (x y : Nat) :
    ind [(1, 1), (2, 1), (3, 1)] x y =
      if (x = 1 ∨ x = 2 ∨ x = 3) ∧ y = 1 then 1 else 0 := by
  unfold ind
  refine if_congr ?_ rfl rfl
  simp only [List.mem_cons, List.not_mem_nil, Prod.mk.injEq, or_false]
  tauto

lemma ind_vert_eq (x y : Nat) :
    ind [(2, 0), (2, 1), (2, 2)] x y =
      if x = 2 ∧ (y = 0 ∨ y = 1 ∨ y = 2) then 1 else 0 := by
  unfold ind
  refine if_congr ?_ rfl rfl
  simp only [List.mem_cons, List.not_mem_nil, Prod.mk.injEq, or_false]
  tauto

lemma ind_horiz_row0 (x y : Nat) (hy : y ≠ 1) : ind [(1, 1), (2, 1), (3, 1)] x y = 0 := by
  rw [ind_horiz_eq, if_neg (by tauto)]

lemma ind_horiz_col0 (x y : Nat) (hx : x ≠ 1 ∧ x ≠ 2 ∧ x ≠ 3) :
    ind [(1, 1), (2, 1), (3, 1)] x y = 0 := by
  rw [ind_horiz_eq, if_neg (by tauto)]

lemma ind_vert_row0 (x y : Nat) (hy : y ≠ 0 ∧ y ≠ 1 ∧ y ≠ 2) :
    ind [(2, 0), (2, 1), (2, 2)] x y = 0 := by
  rw [ind_vert_eq, if_neg (by tauto)]

lemma ind_vert_col0 (x y : Nat) (hx : x ≠ 2) : ind [(2, 0), (2, 1), (2, 2)] x y = 0 := by
  rw [ind_vert_eq, if_neg (by tauto)]

lemma wsub_zero (n : Nat) (hn : 0 < n) : wsub 0 n = n - 1 := by
  rw [wsub_spec 0 n hn, if_pos rfl]

lemma wsub_small (k n : Nat) (h1 : 1 ≤ k) (h2 : k < n) : wsub k n = k - 1 := by
  rw [wsub_spec k n h2, if_neg (by omega)]

lemma wadd_small (k n : Nat) (h : k + 1 < n) : wadd k n = k + 1 := by
  rw [wadd_spec k n (by omega), if_neg (by omega)]

/-- Neighbor count of a grid whose current buffer is the indicator of a
finite cell set `s`. -/
lemma live_neighbors_ind (g : GameOfLife) (s : List (Nat × Nat))
    (hw : 0 < g.w) (hh : 0 < g.h)
    (hcell : ∀ x y, x < g.w → y < g.h → cellAt g x y = ind s x y)
    (x y : Nat) (hx : x < g.w) (hy : y < g.h) :
    g.live_neighbors x y =
      ind s (wsub x g.w) (wsub y g.h) + ind s x (wsub y g.h) +
        ind s (wadd x g.w) (wsub y g.h) +
      ind s (wsub x g.w) y + ind s (wadd x g.w) y +
      ind s (wsub x g.w) (wadd y g.h) + ind s x (wadd y g.h) +
        ind s (wadd x g.w) (wadd y g.h) := by
  rw [live_neighbors_cells g hw hh hx hy,
    hcell _ _ (wsub_lt x hw) (wsub_lt y hh), hcell _ _ hx (wsub_lt y hh),
    hcell _ _ (wadd_lt x hw) (wsub_lt y hh), hcell _ _ (wsub_lt x hw) hy,
    hcell _ _ (wadd_lt x hw) hy, hcell _ _ (wsub_lt x hw) (wadd_lt y hh),
    hcell _ _ hx (wadd_lt y hh), hcell _ _ (wadd_lt x hw) (wadd_lt y hh)]

/-- One step of a grid holding exactly a horizontal blinker at
(1,1)-(3,1) yields exactly the vertical blinker at (2,0)-(2,2). -/
lemma step_ind_horiz_vert (g : GameOfLife) (hg : g.WF) (hw5 : 5 ≤ g.w) (hh5 : 5 ≤ g.h)
    (hcell : ∀ x y, x < g.w → y < g.h → cellAt g x y = ind [(1, 1), (2, 1), (3, 1)] x y) :
    ∀ x y, x < g.w → y < g.h →
      cellAt g.step x y = ind [(2, 0), (2, 1), (2, 2)] x y := by
  have hw : 0 < g.w := by omega
  have hh : 0 < g.h := by omega
  intro x y hx hy
  rw [cellAt_step_rule g hg hx hy, hcell x y hx hy,
    live_neighbors_ind g _ hw hh hcell x y hx hy]
  rcases Nat.lt_or_ge x 5 with hx5 | hx5
  · rcases Nat.lt_or_ge y 3 with hy3 | hy3
    · interval_cases y
      · -- y = 0
        interval_cases x
        · rw [wsub_zero g.w hw, wadd_small 0 g.w (by omega),
            wsub_zero g.h hh, wadd_small 0 g.h (by omega)]
          have kw : ∀ b, ind [(1, 1), (2, 1), (3, 1)] (g.w - 1) b = 0 :=
            fun b => ind_horiz_col0 _ _ (by omega)
          have kh : ∀ a, ind [(1, 1), (2, 1), (3, 1)] a (g.h - 1) = 0 :=
            fun a => ind_horiz_row0 _ _ (by omega)
          simp only [kw, kh]
          simp only [ind_horiz_eq, ind_vert_eq]; norm_num
        · rw [wsub_small 1 g.w (by omega) (by omega), wadd_small 1 g.w (by omega),
            wsub_zero g.h hh, wadd_small 0 g.h (by omega)]
          have kh : ∀ a, ind [(1, 1), (2, 1), (3, 1)] a (g.h - 1) = 0 :=
            fun a => ind_horiz_row0 _ _ (by omega)
          simp only [kh]
          simp only [ind_horiz_eq, ind_vert_eq]; norm_num
        · rw [wsub_small 2 g.w (by omega) (by omega), wadd_small 2 g.w (by omega),
            wsub_zero g.h hh, wadd_small 0 g.h (by omega)]
          have kh : ∀ a, ind [(1, 1), (2, 1), (3, 1)] a (g.h - 1) = 0 :=
            fun a => ind_horiz_row0 _ _ (by omega)
          simp only [kh]
          simp only [ind_horiz_eq, ind_vert_eq]; norm_num
        · rw [wsub_small 3 g.w (by omega) (by omega), wadd_small 3 g.w (by omega),
            wsub_zero g.h hh, wadd_small 0 g.h (by omega)]
          have kh : ∀ a, ind [(1, 1), (2, 1), (3, 1)] a (g.h - 1) = 0 :=
            fun a => ind_horiz_row0 _ _ (by omega)
          simp only [kh]
          simp only [ind_horiz_eq, ind_vert_eq]; norm_num
        · rw [wsub_small 4 g.w (by omega) (by omega),
            wsub_zero g.h hh, wadd_small 0 g.h (by omega)]
          have kh : ∀ a, ind [(1, 1), (2, 1), (3, 1)] a (g.h - 1) = 0 :=
            fun a => ind_horiz_row0 _ _ (by omega)
          have kp : ∀ b, ind [(1, 1), (2, 1), (3, 1)] (wadd 4 g.w) b = 0 :=
            fun b => ind_horiz_col0 _ _
              (by rw [wadd_spec 4 g.w (by omega)]; split_ifs <;> omega)
          simp only [kh, kp]
          simp only [ind_horiz_eq, ind_vert_eq]; norm_num
      · -- y = 1
        interval_cases x
        · rw [wsub_zero g.w hw, wadd_small 0 g.w (by omega),
            wsub_small 1 g.h (by omega) (by omega), wadd_small 1 g.h (by omega)]
          have kw : ∀ b, ind [(1, 1), (2, 1), (3, 1)] (g.w - 1) b = 0 :=
            fun b => ind_horiz_col0 _ _ (by omega)
          simp only [kw]
          simp only [ind_horiz_eq, ind_vert_eq]; norm_num
        · rw [wsub_small 1 g.w (by omega) (by omega), wadd_small 1 g.w (by omega),
            wsub_small 1 g.h (by omega) (by omega), wadd_small 1 g.h (by omega)]
          simp only [ind_horiz_eq, ind_vert_eq]; norm_num
        · rw [wsub_small 2 g.w (by omega) (by omega), wadd_small 2 g.w (by omega),
            wsub_small 1 g.h (by omega) (by omega), wadd_small 1 g.h (by omega)]
          simp only [ind_horiz_eq, ind_vert_eq]; norm_num
        · rw [wsub_small 3 g.w (by omega) (by omega), wadd_small 3 g.w (by omega),
            wsub_small 1 g.h (by omega) (by omega), wadd_small 1 g.h (by omega)]
          simp only [ind_horiz_eq, ind_vert_eq]; norm_num
        · rw [wsub_small 4 g.w (by omega) (by omega),
            wsub_small 1 g.h (by omega) (by omega), wadd_small 1 g.h (by omega)]
          have kp : ∀ b, ind [(1, 1), (2, 1), (3, 1)] (wadd 4 g.w) b = 0 :=
            fun b => ind_horiz_col0 _ _
              (by rw [wadd_spec 4 g.w (by omega)]; split_ifs <;> omega)
          simp only [kp]
          simp only [ind_horiz_eq, ind_vert_eq]; norm_num
      · -- y = 2
        interval_cases x
        · rw [wsub_zero g.w hw, wadd_small 0 g.w (by omega),
            wsub_small 2 g.h (by omega) (by omega), wadd_small 2 g.h (by omega)]
          have kw : ∀ b, ind [(1, 1), (2, 1), (3, 1)] (g.w - 1) b = 0 :=
            fun b => ind_horiz_col0 _ _ (by omega)
          simp only [kw]
          simp only [ind_horiz_eq, ind_vert_eq]; norm_num
        · rw [wsub_small 1 g.w (by omega) (by omega), wadd_small 1 g.w (by omega),
            wsub_small 2 g.h (by omega) (by omega), wadd_small 2 g.h (by omega)]
          simp only [ind_horiz_eq, ind_vert_eq]; norm_num
        · rw [wsub_small 2 g.w (by omega) (by omega), wadd_small 2 g.w (by omega),
            wsub_small 2 g.h (by omega) (by omega), wadd_small 2 g.h (by omega)]
          simp only [ind_horiz_eq, ind_vert_eq]; norm_num
        · rw [wsub_small 3 g.w (by omega) (by omega), wadd_small 3 g.w (by omega),
            wsub_small 2 g.h (by omega) (by omega), wadd_small 2 g.h (by omega)]
          simp only [ind_horiz_eq, ind_vert_eq]; norm_num
        · rw [wsub_small 4 g.w (by omega) (by omega),
            wsub_small 2 g.h (by omega) (by omega), wadd_small 2 g.h (by omega)]
          have kp : ∀ b, ind [(1, 1), (2, 1), (3, 1)] (wadd 4 g.w) b = 0 :=
            fun b => ind_horiz_col0 _ _
              (by rw [wadd_spec 4 g.w (by omega)]; split_ifs <;> omega)
          simp only [kp]
          simp only [ind_horiz_eq, ind_vert_eq]; norm_num
    · -- y ≥ 3: the row of the horizontal blinker is out of reach
      rw [wsub_spec y g.h hy, wadd_spec y g.h hy, if_neg (show ¬y = 0 by omega)]
      have k1 : ∀ a, ind [(1, 1), (2, 1), (3, 1)] a (y - 1) = 0 :=
        fun a => ind_horiz_row0 _ _ (by omega)
      have k2 : ∀ a, ind [(1, 1), (2, 1), (3, 1)] a y = 0 :=
        fun a => ind_horiz_row0 _ _ (by omega)
      have k3 : ∀ a, ind [(1, 1), (2, 1), (3, 1)] a (if y + 1 = g.h then 0 else y + 1) = 0 :=
        fun a => ind_horiz_row0 _ _ (by split_ifs <;> omega)
      simp only [k1, k2, k3]
      rw [ind_vert_row0 x y (by omega)]
      norm_num
  · -- x ≥ 5: the columns of the horizontal blinker are out of reach
    rw [wsub_spec x g.w hx, wadd_spec x g.w hx, if_neg (show ¬x = 0 by omega)]
    have k1 : ∀ b, ind [(1, 1), (2, 1), (3, 1)] (x - 1) b = 0 :=
      fun b => ind_horiz_col0 _ _ (by omega)
    have k2 : ∀ b, ind [(1, 1), (2, 1), (3, 1)] x b = 0 :=
      fun b => ind_horiz_col0 _ _ (by omega)
    have k3 : ∀ b, ind [(1, 1), (2, 1), (3, 1)] (if x + 1 = g.w then 0 else x + 1) b = 0 :=
      fun b => ind_horiz_col0 _ _ (by split_ifs <;> omega)
    simp only [k1, k2, k3]
    rw [ind_vert_col0 x y (by omega)]
    norm_num

/-- One step of a grid holding exactly the vertical blinker at
(2,0)-(2,2) yields exactly the horizontal blinker at (1,1)-(3,1). -/
lemma step_ind_vert_horiz (g : GameOfLife) (hg : g.WF) (hw5 : 5 ≤ g.w) (hh5 : 5 ≤ g.h)
    (hcell : ∀ x y, x < g.w → y < g.h → cellAt g x y = ind [(2, 0), (2, 1), (2, 2)] x y) :
    ∀ x y, x < g.w → y < g.h →
      cellAt g.step x y = ind [(1, 1), (2, 1), (3, 1)] x y := by
  have hw : 0 < g.w := by omega
  have hh : 0 < g.h := by omega
  intro x y hx hy
  rw [cellAt_step_rule g hg hx hy, hcell x y hx hy,
    live_neighbors_ind g _ hw hh hcell x y hx hy]
  rcases Nat.lt_or_ge x 5 with hx5 | hx5
  · rcases Nat.lt_or_ge y 4 with hy4 | hy4
    · interval_cases y
      · -- y = 0
        interval_cases x
        · rw [wsub_zero g.w hw, wadd_small 0 g.w (by omega),
            wsub_zero g.h hh, wadd_small 0 g.h (by omega)]
          have kw : ∀ b, ind [(2, 0), (2, 1), (2, 2)] (g.w - 1) b = 0 :=
            fun b => ind_vert_col0 _ _ (by omega)
          have kh : ∀ a, ind [(2, 0), (2, 1), (2, 2)] a (g.h - 1) = 0 :=
            fun a => ind_vert_row0 _ _ (by omega)
          simp only [kw, kh]
          simp only [ind_vert_eq, ind_horiz_eq]; norm_num
        · rw [wsub_small 1 g.w (by omega) (by omega), wadd_small 1 g.w (by omega),
            wsub_zero g.h hh, wadd_small 0 g.h (by omega)]
          have kh : ∀ a, ind [(2, 0), (2, 1), (2, 2)] a (g.h - 1) = 0 :=
            fun a => ind_vert_row0 _ _ (by omega)
          simp only [kh]
          simp only [ind_vert_eq, ind_horiz_eq]; norm_num
        · rw [wsub_small 2 g.w (by omega) (by omega), wadd_small 2 g.w (by omega),
            wsub_zero g.h hh, wadd_small 0 g.h (by omega)]
          have kh : ∀ a, ind [(2, 0), (2, 1), (2, 2)] a (g.h - 1) = 0 :=
            fun a => ind_vert_row0 _ _ (by omega)
          simp only [kh]
          simp only [ind_vert_eq, ind_horiz_eq]; norm_num
        · rw [wsub_small 3 g.w (by omega) (by omega), wadd_small 3 g.w (by omega),
            wsub_zero g.h hh, wadd_small 0 g.h (by omega)]
          have kh : ∀ a, ind [(2, 0), (2, 1), (2, 2)] a (g.h - 1) = 0 :=
            fun a => ind_vert_row0 _ _ (by omega)
          simp only [kh]
          simp only [ind_vert_eq, ind_horiz_eq]; norm_num
        · rw [wsub_small 4 g.w (by omega) (by omega),
            wsub_zero g.h hh, wadd_small 0 g.h (by omega)]
          have kh : ∀ a, ind [(2, 0), (2, 1), (2, 2)] a (g.h - 1) = 0 :=
            fun a => ind_vert_row0 _ _ (by omega)
          have kp : ∀ b, ind [(2, 0), (2, 1), (2, 2)] (wadd 4 g.w) b = 0 :=
            fun b => ind_vert_col0 _ _
              (by rw [wadd_spec 4 g.w (by omega)]; split_ifs <;> omega)
          simp only [kh, kp]
          simp only [ind_vert_eq, ind_horiz_eq]; norm_num
      · -- y = 1
        interval_cases x
        · rw [wsub_zero g.w hw, wadd_small 0 g.w (by omega),
            wsub_small 1 g.h (by omega) (by omega), wadd_small 1 g.h (by omega)]
          have kw : ∀ b, ind [(2, 0), (2, 1), (2, 2)] (g.w - 1) b = 0 :=
            fun b => ind_vert_col0 _ _ (by omega)
          simp only [kw]
          simp only [ind_vert_eq, ind_horiz_eq]; norm_num
        · rw [wsub_small 1 g.w (by omega) (by omega), wadd_small 1 g.w (by omega),
            wsub_small 1 g.h (by omega) (by omega), wadd_small 1 g.h (by omega)]
          simp only [ind_vert_eq, ind_horiz_eq]; norm_num
        · rw [wsub_small 2 g.w (by omega) (by omega), wadd_small 2 g.w (by omega),
            wsub_small 1 g.h (by omega) (by omega), wadd_small 1 g.h (by omega)]
          simp only [ind_vert_eq, ind_horiz_eq]; norm_num
        · rw [wsub_small 3 g.w (by omega) (by omega), wadd_small 3 g.w (by omega),
            wsub_small 1 g.h (by omega) (by omega), wadd_small 1 g.h (by omega)]
          simp only [ind_vert_eq, ind_horiz_eq]; norm_num
        · rw [wsub_small 4 g.w (by omega) (by omega),
            wsub_small 1 g.h (by omega) (by omega), wadd_small 1 g.h (by omega)]
          have kp : ∀ b, ind [(2, 0), (2, 1), (2, 2)] (wadd 4 g.w) b = 0 :=
            fun b => ind_vert_col0 _ _
              (by rw [wadd_spec 4 g.w (by omega)]; split_ifs <;> omega)
          simp only [kp]
          simp only [ind_vert_eq, ind_horiz_eq]; norm_num
      · -- y = 2
        interval_cases x
        · rw [wsub_zero g.w hw, wadd_small 0 g.w (by omega),
            wsub_small 2 g.h (by omega) (by omega), wadd_small 2 g.h (by omega)]
          have kw : ∀ b, ind [(2, 0), (2, 1), (2, 2)] (g.w - 1) b = 0 :=
            fun b => ind_vert_col0 _ _ (by omega)
          simp only [kw]
          simp only [ind_vert_eq, ind_horiz_eq]; norm_num
        · rw [wsub_small 1 g.w (by omega) (by omega), wadd_small 1 g.w (by omega),
            wsub_small 2 g.h (by omega) (by omega), wadd_small 2 g.h (by omega)]
          simp only [ind_vert_eq, ind_horiz_eq]; norm_num
        · rw [wsub_small 2 g.w (by omega) (by omega), wadd_small 2 g.w (by omega),
            wsub_small 2 g.h (by omega) (by omega), wadd_small 2 g.h (by omega)]
          simp only [ind_vert_eq, ind_horiz_eq]; norm_num
        · rw [wsub_small 3 g.w (by omega) (by omega), wadd_small 3 g.w (by omega),
            wsub_small 2 g.h (by omega) (by omega), wadd_small 2 g.h (by omega)]
          simp only [ind_vert_eq, ind_horiz_eq]; norm_num
        · rw [wsub_small 4 g.w (by omega) (by omega),
            wsub_small 2 g.h (by omega) (by omega), wadd_small 2 g.h (by omega)]
          have kp : ∀ b, ind [(2, 0), (2, 1), (2, 2)] (wadd 4 g.w) b = 0 :=
            fun b => ind_vert_col0 _ _
              (by rw [wadd_spec 4 g.w (by omega)]; split_ifs <;> omega)
          simp only [kp]
          simp only [ind_vert_eq, ind_horiz_eq]; norm_num
      · -- y = 3
        interval_cases x
        · rw [wsub_zero g.w hw, wadd_small 0 g.w (by omega),
            wsub_small 3 g.h (by omega) (by omega), wadd_small 3 g.h (by omega)]
          have kw : ∀ b, ind [(2, 0), (2, 1), (2, 2)] (g.w - 1) b = 0 :=
            fun b => ind_vert_col0 _ _ (by omega)
          simp only [kw]
          simp only [ind_vert_eq, ind_horiz_eq]; norm_num
        · rw [wsub_small 1 g.w (by omega) (by omega), wadd_small 1 g.w (by omega),
            wsub_small 3 g.h (by omega) (by omega), wadd_small 3 g.h (by omega)]
          simp only [ind_vert_eq, ind_horiz_eq]; norm_num
        · rw [wsub_small 2 g.w (by omega) (by omega), wadd_small 2 g.w (by omega),
            wsub_small 3 g.h (by omega) (by omega), wadd_small 3 g.h (by omega)]
          simp only [ind_vert_eq, ind_horiz_eq]; norm_num
        · rw [wsub_small 3 g.w (by omega) (by omega), wadd_small 3 g.w (by omega),
            wsub_small 3 g.h (by omega) (by omega), wadd_small 3 g.h (by omega)]
          simp only [ind_vert_eq, ind_horiz_eq]; norm_num
        · rw [wsub_small 4 g.w (by omega) (by omega),
            wsub_small 3 g.h (by omega) (by omega), wadd_small 3 g.h (by omega)]
          have kp : ∀ b, ind [(2, 0), (2, 1), (2, 2)] (wadd 4 g.w) b = 0 :=
            fun b => ind_vert_col0 _ _
              (by rw [wadd_spec 4 g.w (by omega)]; split_ifs <;> omega)
          simp only [kp]
          simp only [ind_vert_eq, ind_horiz_eq]; norm_num
    · by_cases hyp : y + 1 = g.h
      · -- y = H-1: the wrap row yp = 0 still sees the top of the column
        rw [wsub_small y g.h (by omega) (by omega), wadd_spec y g.h hy, if_pos hyp]
        have k1 : ∀ a, ind [(2, 0), (2, 1), (2, 2)] a (y - 1) = 0 :=
          fun a => ind_vert_row0 _ _ (by omega)
        have k2 : ∀ a, ind [(2, 0), (2, 1), (2, 2)] a y = 0 :=
          fun a => ind_vert_row0 _ _ (by omega)
        simp only [k1, k2]
        rw [ind_horiz_row0 x y (by omega)]
        interval_cases x
        · rw [wsub_zero g.w hw, wadd_small 0 g.w (by omega)]
          have kw : ∀ b, ind [(2, 0), (2, 1), (2, 2)] (g.w - 1) b = 0 :=
            fun b => ind_vert_col0 _ _ (by omega)
          simp only [kw]
          simp only [ind_vert_eq]; norm_num
        · rw [wsub_small 1 g.w (by omega) (by omega), wadd_small 1 g.w (by omega)]
          simp only [ind_vert_eq]; norm_num
        · rw [wsub_small 2 g.w (by omega) (by omega), wadd_small 2 g.w (by omega)]
          simp only [ind_vert_eq]; norm_num
        · rw [wsub_small 3 g.w (by omega) (by omega), wadd_small 3 g.w (by omega)]
          simp only [ind_vert_eq]; norm_num
        · rw [wsub_small 4 g.w (by omega) (by omega)]
          have kp : ∀ b, ind [(2, 0), (2, 1), (2, 2)] (wadd 4 g.w) b = 0 :=
            fun b => ind_vert_col0 _ _
              (by rw [wadd_spec 4 g.w (by omega)]; split_ifs <;> omega)
          simp only [kp]
          simp only [ind_vert_eq]; norm_num
      · -- 4 ≤ y < H-1: every visible row is at least 3, all dead
        rw [wsub_small y g.h (by omega) (by omega), wadd_spec y g.h hy, if_neg hyp]
        have k1 : ∀ a, ind [(2, 0), (2, 1), (2, 2)] a (y - 1) = 0 :=
          fun a => ind_vert_row0 _ _ (by omega)
        have k2 : ∀ a, ind [(2, 0), (2, 1), (2, 2)] a y = 0 :=
          fun a => ind_vert_row0 _ _ (by omega)
        have k3 : ∀ a, ind [(2, 0), (2, 1), (2, 2)] a (y + 1) = 0 :=
          fun a => ind_vert_row0 _ _ (by omega)
        simp only [k1, k2, k3]
        rw [ind_horiz_row0 x y (by omega)]
        norm_num
  · -- x ≥ 5: the column of the vertical blinker is out of reach
    rw [wsub_spec x g.w hx, wadd_spec x g.w hx, if_neg (show ¬x = 0 by omega)]
    have k1 : ∀ b, ind [(2, 0), (2, 1), (2, 2)] (x - 1) b = 0 :=
      fun b => ind_vert_col0 _ _ (by omega)
    have k2 : ∀ b, ind [(2, 0), (2, 1), (2, 2)] x b = 0 :=
      fun b => ind_vert_col0 _ _ (by omega)
    have k3 : ∀ b, ind [(2, 0), (2, 1), (2, 2)] (if x + 1 = g.w then 0 else x + 1) b = 0 :=
      fun b => ind_vert_col0 _ _ (by split_ifs <;> omega)
    simp only [k1, k2, k3]
    rw [ind_horiz_col0 x y (by omega)]
    norm_num

/-- Seeding a blinker at (1,1) on a fresh grid of dimensions at least 5
gives exactly the horizontal indicator configuration. -/
lemma cellAt_blinker (w h : Nat) (hw5 : 5 ≤ w) (hh5 : 5 ≤ h) :
    ∀ x y, x < w → y < h →
      cellAt ((new w h).spawn_blinker 1 1) x y = ind [(1, 1), (2, 1), (3, 1)] x y := by
  intro x y hx hy
  unfold spawn_blinker
  rw [cellAt_spawn (new w h) _ 1 1 (by rw [new_w]; omega) (by rw [new_h]; omega)
    (new_WF w h).1 x y (by rw [new_w]; exact hx) (by rw [new_h]; exact hy)]
  rw [cellAt_new, ind_horiz_eq]
  refine if_congr ?_ rfl rfl
  simp only [List.mem_cons, List.not_mem_nil, or_false, new_w, new_h]
  constructor
  · rintro ⟨d, (rfl | rfl | rfl), h1, h2⟩ <;>
      · rw [Nat.mod_eq_of_lt (by omega)] at h1
        rw [Nat.mod_eq_of_lt (by omega)] at h2
        omega
  · rintro ⟨hor, hy1⟩
    rcases hor with h1 | h1 | h1
    · exact ⟨(0, 0), Or.inl rfl,
        by rw [Nat.mod_eq_of_lt (by omega)]; omega,
        by rw [Nat.mod_eq_of_lt (by omega)]; omega⟩
    · exact ⟨(1, 0), Or.inr (Or.inl rfl),
        by rw [Nat.mod_eq_of_lt (by omega)]; omega,
        by rw [Nat.mod_eq_of_lt (by omega)]; omega⟩
    · exact ⟨(2, 0), Or.inr (Or.inr rfl),
        by rw [Nat.mod_eq_of_lt (by omega)]; omega,
        by rw [Nat.mod_eq_of_lt (by omega)]; omega⟩

/-! ## Claim theorems -/

/-- C9: a freshly constructed grid of positive dimensions is fully dead:
`is_alive` returns `false` (no panic) for every coordinate in
`[0,W) × [0,H)`. -/
theorem C9_new_fully_dead (w h : Nat) (_hw : 0 < w) (_hh : 0 < h) (x y : Nat)
    (hx : x < w) (hy : y < h) : (new w h).is_alive x y = some false := by
  unfold is_alive
  have hlen : (new w h).idx x y < (new w h).curr.length := by
    show (new w h).idx x y < (List.replicate (w * h) 0).length
    rw [List.length_replicate]
    exact (new w h).idx_lt_area hx hy
  rw [if_pos hlen]
  have h0 : (new w h).curr.getD ((new w h).idx x y) 0 = 0 := getD_replicate _ _
  rw [h0]
  rfl

theorem C9_new_fully_dead_witness : (new 3 2).is_alive 2 1 = some false :=
  C9_new_fully_dead 3 2 (by decide) (by decide) 2 1 (by decide) (by decide)

/-- C7: after `clear()` every cell of both the current and the scratch
buffer is dead, `is_alive` reports every in-range cell dead, and `clear` is
idempotent. -/
theorem C7_clear_dead_idempotent (g : GameOfLife) :
    (∀ i, g.clear.curr.getD i 0 = 0) ∧ (∀ i, g.clear.next.getD i 0 = 0) ∧
    (∀ x y, g.idx x y < g.curr.length → g.clear.is_alive x y = some false) ∧
    g.clear.clear = g.clear := by
  refine ⟨fun i => getD_replicate _ _, fun i => getD_replicate _ _, ?_, ?_⟩
  · intro x y hxy
    unfold is_alive
    have hlen : g.clear.idx x y < g.clear.curr.length := by
      show g.idx x y < (List.replicate g.curr.length 0).length
      rw [List.length_replicate]
      exact hxy
    rw [if_pos hlen]
    have h0 : g.clear.curr.getD (g.clear.idx x y) 0 = 0 := getD_replicate _ _
    rw [h0]
    rfl
  · show g.clear.clear = g.clear
    unfold clear
    simp

theorem C7_clear_dead_idempotent_witness :
    ((new 2 2).set_alive 1 1).clear.is_alive 1 1 = some false ∧
    ((new 2 2).set_alive 1 1).clear.clear = ((new 2 2).set_alive 1 1).clear :=
  ⟨(C7_clear_dead_idempotent ((new 2 2).set_alive 1 1)).2.2.1 1 1 (by decide),
   (C7_clear_dead_idempotent ((new 2 2).set_alive 1 1)).2.2.2⟩

/-- C4 counterexample: construction with width 0 does not fail and is not
rejected: it produces a grid whose width is 0 and whose buffers are empty,
contradicting "a grid with a zero dimension is never produced". -/
theorem C4_counterexample :
    (new 0 5).w = 0 ∧ (new 0 5).curr = [] ∧ (new 0 5).next = [] := by decide

/-- C4 amended: `new` performs no validation at all: a grid of width or
height zero is constructed normally, its buffers are empty, and `step` on
it is a no-op (the per-cell rule logic never runs), so the degenerate grid
is harmless rather than rejected. -/
theorem C4_amended_no_validation (w h : Nat) (hz : w = 0 ∨ h = 0) :
    (new w h).w = w ∧ (new w h).h = h ∧ (new w h).curr = [] ∧ (new w h).next = [] ∧
    (new w h).step = new w h := by
  have harea : w * h = 0 := by
    rcases hz with h0 | h0 <;> simp [h0]
  have hfix : ∀ (l b : List Nat), l.foldl (fun b _ => b) b = b := by
    intro l
    induction l with
    | nil => intro b; rfl
    | cons a tl ih => intro b; rw [List.foldl_cons]; exact ih b
  have hsn : (new w h).stepNext = (new w h).next := by
    unfold stepNext
    rcases hz with h0 | h0
    · have hw0 : (new w h).w = 0 := h0 ▸ rfl
      rw [hw0]
      simp only [List.range_zero, List.foldl_nil]
      exact hfix _ _
    · have hh0 : (new w h).h = 0 := h0 ▸ rfl
      rw [hh0]
      simp only [List.range_zero, List.foldl_nil]
  refine ⟨rfl, rfl, by simp [new, harea], by simp [new, harea], ?_⟩
  unfold step
  rw [hsn]
  rfl

theorem C4_amended_no_validation_witness :
    (new 0 5).curr = [] ∧ (new 0 5).step = new 0 5 :=
  ⟨(C4_amended_no_validation 0 5 (Or.inl rfl)).2.2.1,
   (C4_amended_no_validation 0 5 (Or.inl rfl)).2.2.2.2⟩

/-- C3 counterexample: the public `is_alive` does not return dead for
out-of-range coordinates: on a 2×2 grid, `is_alive 0 2` hits the
index-out-of-bounds panic (`none`), and with (1,1) alive, `is_alive 3 0`
aliases to in-buffer index 3 and reports the cell *alive*. -/
theorem C3_counterexample :
    (new 2 2).is_alive 0 2 = none ∧
    ((new 2 2).set_alive 1 1).is_alive 3 0 = some true := by decide

/-- C3 amended: out-of-range `set_alive`/`set_dead` are no-ops that leave
the whole grid unchanged, but the public `is_alive` has no bounds check:
an out-of-range coordinate whose row-major index is still below the buffer
length reads the aliased cell, and one at or beyond the buffer length
panics. -/
theorem C3_amended_oob_policy (g : GameOfLife) (x y : Nat)
    (hoob : ¬(x < g.w ∧ y < g.h)) :
    g.set_alive x y = g ∧ g.set_dead x y = g ∧
    (g.idx x y < g.curr.length →
      g.is_alive x y = some (g.curr.getD (g.idx x y) 0 == 1)) ∧
    (g.curr.length ≤ g.idx x y → g.is_alive x y = none) := by
  refine ⟨?_, ?_, ?_, ?_⟩
  · unfold set_alive; rw [if_neg hoob]
  · unfold set_dead; rw [if_neg hoob]
  · intro hlt
    unfold is_alive
    rw [if_pos hlt]
  · intro hge
    unfold is_alive
    rw [if_neg (by omega)]

theorem C3_amended_oob_policy_witness :
    ((new 2 2).set_alive 1 1).set_alive 3 0 = (new 2 2).set_alive 1 1 ∧
    ((new 2 2).set_alive 1 1).set_dead 3 0 = (new 2 2).set_alive 1 1 ∧
    ((new 2 2).set_alive 1 1).is_alive 3 0 = some true ∧
    (new 2 2).is_alive 0 2 = none := by
  have h1 := C3_amended_oob_policy ((new 2 2).set_alive 1 1) 3 0 (by decide)
  have h2 := C3_amended_oob_policy (new 2 2) 0 2 (by decide)
  refine ⟨h1.1, h1.2.1, ?_, h2.2.2.2 (by decide)⟩
  rw [h1.2.2.1 (by decide)]
  decide

/-- C1: for every in-range cell, the current buffer after `step()` holds
the value computed purely from the pre-step pair (alive, neighbor count)
of that cell, with the source's exact first-match precedence
(underpopulation, survival, overpopulation, reproduction, default): the
whole right-hand side reads only the pre-step grid `g`, so the update is
simultaneous against the single pre-step snapshot. -/
theorem C1_step_rule (g : GameOfLife) (hg : g.WF) (_hw : 0 < g.w) (_hh : 0 < g.h)
    (x y : Nat) (hx : x < g.w) (hy : y < g.h) :
    cellAt g.step x y =
      (if cellAt g x y = 1 ∧ g.live_neighbors x y < 2 then 0
       else if cellAt g x y = 1 ∧
           (g.live_neighbors x y = 2 ∨ g.live_neighbors x y = 3) then 1
       else if cellAt g x y = 1 ∧ 3 < g.live_neighbors x y then 0
       else if ¬cellAt g x y = 1 ∧ g.live_neighbors x y = 3 then 1
       else 0) := by
  rw [cellAt_step g hg hx hy]
  unfold nextState
  by_cases ha : cellAt g x y = 1
  · simp [beq_iff_eq, ha]
  · simp [beq_iff_eq, ha]

theorem C1_step_rule_witness :
    cellAt ((new 4 4).spawn_blinker 1 1).step 2 2 =
      (if cellAt ((new 4 4).spawn_blinker 1 1) 2 2 = 1 ∧
          ((new 4 4).spawn_blinker 1 1).live_neighbors 2 2 < 2 then 0
       else if cellAt ((new 4 4).spawn_blinker 1 1) 2 2 = 1 ∧
           (((new 4 4).spawn_blinker 1 1).live_neighbors 2 2 = 2 ∨
            ((new 4 4).spawn_blinker 1 1).live_neighbors 2 2 = 3) then 1
       else if cellAt ((new 4 4).spawn_blinker 1 1) 2 2 = 1 ∧
           3 < ((new 4 4).spawn_blinker 1 1).live_neighbors 2 2 then 0
       else if ¬cellAt ((new 4 4).spawn_blinker 1 1) 2 2 = 1 ∧
           ((new 4 4).spawn_blinker 1 1).live_neighbors 2 2 = 3 then 1
       else 0) :=
  C1_step_rule ((new 4 4).spawn_blinker 1 1) (by decide) (by decide) (by decide)
    2 2 (by decide) (by decide)

/-- C2: the live-neighbor count of an in-range cell equals the sum of the
states of its 8 neighbors, each coordinate independently wrapped with
Euclidean (never negative) modulo, expressed at the `Nat` level as
`(x + W - 1) % W` / `(x + 1) % W` (resp. for `y`); in particular the wrap
is uniform at edges and corners: for W, H at least 2 the cell (0,0) counts
(W-1, H-1), (W-1, 0) and (0, H-1) among its neighbors. -/
theorem C2_toroidal_neighbors (g : GameOfLife) (hw : 0 < g.w) (hh : 0 < g.h)
    (x y : Nat) (hx : x < g.w) (hy : y < g.h) :
    (g.live_neighbors x y =
      cellAt g ((x + g.w - 1) % g.w) ((y + g.h - 1) % g.h) +
        cellAt g x ((y + g.h - 1) % g.h) +
        cellAt g ((x + 1) % g.w) ((y + g.h - 1) % g.h) +
        cellAt g ((x + g.w - 1) % g.w) y + cellAt g ((x + 1) % g.w) y +
        cellAt g ((x + g.w - 1) % g.w) ((y + 1) % g.h) +
        cellAt g x ((y + 1) % g.h) +
        cellAt g ((x + 1) % g.w) ((y + 1) % g.h)) ∧
    (2 ≤ g.w → 2 ≤ g.h →
      g.live_neighbors 0 0 =
        cellAt g (g.w - 1) (g.h - 1) + cellAt g 0 (g.h - 1) + cellAt g 1 (g.h - 1) +
          cellAt g (g.w - 1) 0 + cellAt g 1 0 +
          cellAt g (g.w - 1) 1 + cellAt g 0 1 + cellAt g 1 1) := by
  constructor
  · exact live_neighbors_cells g hw hh hx hy
  · intro hw2 hh2
    have h0 := live_neighbors_cells g hw hh (show 0 < g.w from hw) (show 0 < g.h from hh)
    have ew1 : wsub 0 g.w = g.w - 1 := by
      unfold wsub
      rw [Nat.zero_add, Nat.mod_eq_of_lt (by omega)]
    have ew2 : wadd 0 g.w = 1 := by
      unfold wadd
      rw [Nat.zero_add, Nat.mod_eq_of_lt (by omega)]
    have eh1 : wsub 0 g.h = g.h - 1 := by
      unfold wsub
      rw [Nat.zero_add, Nat.mod_eq_of_lt (by omega)]
    have eh2 : wadd 0 g.h = 1 := by
      unfold wadd
      rw [Nat.zero_add, Nat.mod_eq_of_lt (by omega)]
    rw [ew1, ew2, eh1, eh2] at h0
    exact h0

theorem C2_toroidal_neighbors_witness :
    ((new 5 4).set_alive 4 3).live_neighbors 0 0 =
      cellAt ((new 5 4).set_alive 4 3) 4 3 + cellAt ((new 5 4).set_alive 4 3) 0 3 +
        cellAt ((new 5 4).set_alive 4 3) 1 3 + cellAt ((new 5 4).set_alive 4 3) 4 0 +
        cellAt ((new 5 4).set_alive 4 3) 1 0 + cellAt ((new 5 4).set_alive 4 3) 4 1 +
        cellAt ((new 5 4).set_alive 4 3) 0 1 + cellAt ((new 5 4).set_alive 4 3) 1 1 ∧
    ((new 5 4).set_alive 4 3).live_neighbors 0 0 = 1 := by
  have h := (C2_toroidal_neighbors ((new 5 4).set_alive 4 3) (by decide) (by decide)
    0 0 (by decide) (by decide)).2 (by decide) (by decide)
  exact ⟨h, by decide⟩

/-- C5: `step()` is deterministic: two well-formed grids with the same
dimensions and identical current buffers have identical current buffers
after `step()`; no randomness or state outside (w, h, curr) is consulted. -/
theorem C5_step_deterministic (g1 g2 : GameOfLife) (h1 : g1.WF) (h2 : g2.WF)
    (hw : g1.w = g2.w) (hh : g1.h = g2.h) (hc : g1.curr = g2.curr) :
    g1.step.curr = g2.step.curr := by
  show g1.stepNext = g2.stepNext
  apply eq_of_cellIdx g1.w g1.h
  · rw [stepNext_length, h1.2]
  · rw [stepNext_length, h2.2, hw, hh]
  · intro x y hx hy
    have hx2 : x < g2.w := hw ▸ hx
    have hy2 : y < g2.h := hh ▸ hy
    have e1 := stepNext_getD g1 x y hx hy
      (by rw [h1.2]; exact g1.idx_lt_area hx hy)
    have e2 := stepNext_getD g2 x y hx2 hy2
      (by rw [h2.2]; exact g2.idx_lt_area hx2 hy2)
    have hidx : g1.idx x y = g2.idx x y := by
      unfold idx
      rw [hw]
    have hidx1 : y * g1.w + x = g1.idx x y := rfl
    rw [hidx1, e1, hidx, e2, live_neighbors_congr g1 g2 hw hh hc x y, hc]

theorem C5_step_deterministic_witness :
    ((new 2 2).step).curr =
      (GameOfLife.step { new 2 2 with next := [1, 0, 0, 1] }).curr :=
  C5_step_deterministic (new 2 2) { new 2 2 with next := [1, 0, 0, 1] }
    (by decide) (by decide) rfl rfl rfl

/-- C10: every operation preserves the dimensions and the invariant that
both buffers have length exactly `w * h` (`WF`); `new` establishes it; the
two generic seeding operations cover every named pattern spawner, which
merely instantiates them; consequently the row-major index `y*W + x` is
within both buffers for every in-range coordinate. -/
theorem C10_shape_invariant (g : GameOfLife) (hg : g.WF) (w h : Nat) :
    ((new w h).WF ∧ (new w h).w = w ∧ (new w h).h = h) ∧
    (g.clear.WF ∧ g.clear.w = g.w ∧ g.clear.h = g.h) ∧
    (∀ draw, (g.randomize draw).WF ∧ (g.randomize draw).w = g.w ∧
      (g.randomize draw).h = g.h) ∧
    (∀ x y, (g.set_alive x y).WF ∧ (g.set_alive x y).w = g.w ∧
      (g.set_alive x y).h = g.h) ∧
    (∀ x y, (g.set_dead x y).WF ∧ (g.set_dead x y).w = g.w ∧
      (g.set_dead x y).h = g.h) ∧
    (∀ rel ox oy, (g.spawn rel ox oy).WF ∧ (g.spawn rel ox oy).w = g.w ∧
      (g.spawn rel ox oy).h = g.h) ∧
    (∀ ox oy pattern c, (g.spawn_pattern_ascii ox oy pattern c).WF ∧
      (g.spawn_pattern_ascii ox oy pattern c).w = g.w ∧
      (g.spawn_pattern_ascii ox oy pattern c).h = g.h) ∧
    (g.step.WF ∧ g.step.w = g.w ∧ g.step.h = g.h) ∧
    (∀ x y, x < g.w → y < g.h →
      g.idx x y < g.curr.length ∧ g.idx x y < g.next.length) := by
  refine ⟨⟨new_WF w h, rfl, rfl⟩,
    ⟨clear_WF g hg, rfl, rfl⟩,
    fun draw => ⟨randomize_WF g hg draw, rfl, rfl⟩,
    fun x y => ⟨set_alive_WF g hg x y, set_alive_w g x y, set_alive_h g x y⟩,
    fun x y => ⟨set_dead_WF g hg x y, set_dead_w g x y, set_dead_h g x y⟩,
    fun rel ox oy => ⟨spawn_WF g hg rel ox oy, spawn_w g rel ox oy, spawn_h g rel ox oy⟩,
    fun ox oy pattern c => ⟨spawn_pattern_ascii_WF g hg ox oy pattern c,
      spawn_pattern_ascii_w g ox oy pattern c, spawn_pattern_ascii_h g ox oy pattern c⟩,
    ⟨step_WF g hg, rfl, rfl⟩,
    fun x y hx hy => ⟨?_, ?_⟩⟩
  · rw [hg.1]; exact g.idx_lt_area hx hy
  · rw [hg.2]; exact g.idx_lt_area hx hy

theorem C10_shape_invariant_witness :
    ((new 4 5).WF ∧ (new 4 5).w = 4 ∧ (new 4 5).h = 5) ∧
    ((new 2 3).step.WF ∧ (new 2 3).step.w = (new 2 3).w ∧
      (new 2 3).step.h = (new 2 3).h) := by
  have hc := C10_shape_invariant (new 2 3) (by decide) 4 5
  exact ⟨hc.1, hc.2.2.2.2.2.2.2.1⟩

/-- C8: seeding (by offset list or by ASCII rows) sets exactly the cells
`((ox+dx) mod W, (oy+dy) mod H)` of the pattern's live offsets to alive in
the current buffer, leaves every other cell's previous state unchanged,
never kills a live cell, and never fails: offsets beyond the grid simply
wrap, aliased offsets combining by OR. -/
theorem C8_seeding_or_semantics (g : GameOfLife) (hw : 0 < g.w) (hh : 0 < g.h)
    (hc : g.curr.length = g.w * g.h) (rel : List (Nat × Nat))
    (pattern : List (List Char)) (c : Char) (ox oy x y : Nat)
    (hx : x < g.w) (hy : y < g.h) :
    (cellAt (g.spawn rel ox oy) x y =
      if ∃ d ∈ rel, x = (ox + d.1) % g.w ∧ y = (oy + d.2) % g.h then 1
      else cellAt g x y) ∧
    (cellAt g x y = 1 → cellAt (g.spawn rel ox oy) x y = 1) ∧
    (cellAt (g.spawn_pattern_ascii ox oy pattern c) x y =
      if ∃ row ∈ pattern.enum, ∃ ch ∈ row.2.enum, ch.2 = c ∧
          x = (ox + ch.1) % g.w ∧ y = (oy + row.1) % g.h then 1
      else cellAt g x y) ∧
    (cellAt g x y = 1 → cellAt (g.spawn_pattern_ascii ox oy pattern c) x y = 1) := by
  have hmain := cellAt_spawn g rel ox oy hw hh hc x y hx hy
  have hiff : (∃ d ∈ asciiOffsets pattern c, x = (ox + d.1) % g.w ∧
      y = (oy + d.2) % g.h) ↔
      (∃ row ∈ pattern.enum, ∃ ch ∈ row.2.enum, ch.2 = c ∧
        x = (ox + ch.1) % g.w ∧ y = (oy + row.1) % g.h) := by
    constructor
    · rintro ⟨d, hd, hp⟩
      rcases (mem_asciiOffsets pattern c d).mp hd with ⟨row, hrow, ch, hch, hcc, hdd⟩
      subst hdd
      exact ⟨row, hrow, ch, hch, hcc, hp.1, hp.2⟩
    · rintro ⟨row, hrow, ch, hch, hcc, hp1, hp2⟩
      exact ⟨(ch.1, row.1),
        (mem_asciiOffsets pattern c _).mpr ⟨row, hrow, ch, hch, hcc, rfl⟩, hp1, hp2⟩
  have hascii : cellAt (g.spawn_pattern_ascii ox oy pattern c) x y =
      if ∃ row ∈ pattern.enum, ∃ ch ∈ row.2.enum, ch.2 = c ∧
          x = (ox + ch.1) % g.w ∧ y = (oy + row.1) % g.h then 1
      else cellAt g x y := by
    rw [spawn_pattern_ascii_eq_spawn,
      cellAt_spawn g (asciiOffsets pattern c) ox oy hw hh hc x y hx hy]
    exact if_congr hiff rfl rfl
  refine ⟨hmain, ?_, hascii, ?_⟩
  · intro halive
    rw [hmain]
    by_cases hcond : ∃ d ∈ rel, x = (ox + d.1) % g.w ∧ y = (oy + d.2) % g.h
    · rw [if_pos hcond]
    · rw [if_neg hcond]; exact halive
  · intro halive
    rw [hascii]
    by_cases hcond : ∃ row ∈ pattern.enum, ∃ ch ∈ row.2.enum, ch.2 = c ∧
        x = (ox + ch.1) % g.w ∧ y = (oy + row.1) % g.h
    · rw [if_pos hcond]
    · rw [if_neg hcond]; exact halive

/-- C6: on an otherwise empty grid of width and height at least 5, seeding
a blinker (three live cells in a horizontal row, here at (1,1)-(3,1)) and
stepping once yields exactly the vertical 3-cell column centered on the
same middle cell (2,1) with every other cell dead, and stepping twice
returns the current buffer exactly to the seeded configuration
(period 2). -/
theorem C6_blinker_period_two (w h : Nat) (hw5 : 5 ≤ w) (hh5 : 5 ≤ h) :
    (∀ x y, x < w → y < h →
      cellAt ((new w h).spawn_blinker 1 1) x y = ind [(1, 1), (2, 1), (3, 1)] x y) ∧
    (∀ x y, x < w → y < h →
      cellAt (((new w h).spawn_blinker 1 1).step) x y = ind [(2, 0), (2, 1), (2, 2)] x y) ∧
    ((new w h).spawn_blinker 1 1).step.step.curr = ((new w h).spawn_blinker 1 1).curr := by
  have hB : ((new w h).spawn_blinker 1 1).WF :=
    spawn_WF (new w h) (new_WF w h) [(0, 0), (1, 0), (2, 0)] 1 1
  have hBw : ((new w h).spawn_blinker 1 1).w = w := by
    unfold spawn_blinker
    rw [spawn_w, new_w]
  have hBh : ((new w h).spawn_blinker 1 1).h = h := by
    unfold spawn_blinker
    rw [spawn_h, new_h]
  have h1 := cellAt_blinker w h hw5 hh5
  have hcellB : ∀ x y, x < ((new w h).spawn_blinker 1 1).w →
      y < ((new w h).spawn_blinker 1 1).h →
      cellAt ((new w h).spawn_blinker 1 1) x y = ind [(1, 1), (2, 1), (3, 1)] x y := by
    intro x y hx hy
    exact h1 x y (by rw [← hBw]; exact hx) (by rw [← hBh]; exact hy)
  have h2 := step_ind_horiz_vert ((new w h).spawn_blinker 1 1) hB
    (by show 5 ≤ ((new w h).spawn_blinker 1 1).w; rw [hBw]; exact hw5)
    (by show 5 ≤ ((new w h).spawn_blinker 1 1).h; rw [hBh]; exact hh5) hcellB
  have h2w : ∀ x y, x < w → y < h →
      cellAt (((new w h).spawn_blinker 1 1).step) x y = ind [(2, 0), (2, 1), (2, 2)] x y := by
    intro x y hx hy
    exact h2 x y (by show x < ((new w h).spawn_blinker 1 1).w; rw [hBw]; exact hx)
      (by show y < ((new w h).spawn_blinker 1 1).h; rw [hBh]; exact hy)
  have hM : (((new w h).spawn_blinker 1 1).step).WF :=
    step_WF ((new w h).spawn_blinker 1 1) hB
  have h3 := step_ind_vert_horiz (((new w h).spawn_blinker 1 1).step) hM
    (by show 5 ≤ ((new w h).spawn_blinker 1 1).w; rw [hBw]; exact hw5)
    (by show 5 ≤ ((new w h).spawn_blinker 1 1).h; rw [hBh]; exact hh5) h2
  refine ⟨h1, h2w, ?_⟩
  apply eq_of_cellIdx w h
  · have l1 : (((new w h).spawn_blinker 1 1).step).step.curr.length =
        (((new w h).spawn_blinker 1 1).step).next.length := stepNext_length _
    rw [l1]
    show ((new w h).spawn_blinker 1 1).curr.length = w * h
    rw [hB.1, hBw, hBh]
  · rw [hB.1, hBw, hBh]
  · intro x y hx hy
    show cellAt ((((new w h).spawn_blinker 1 1).step).step) x y =
      cellAt ((new w h).spawn_blinker 1 1) x y
    rw [h1 x y hx hy]
    exact h3 x y (by show x < ((new w h).spawn_blinker 1 1).w; rw [hBw]; exact hx)
      (by show y < ((new w h).spawn_blinker 1 1).h; rw [hBh]; exact hy)

theorem C6_blinker_period_two_witness :
    cellAt (((new 5 5).spawn_blinker 1 1).step) 2 0 = 1 ∧
    ((new 5 5).spawn_blinker 1 1).step.step.curr = ((new 5 5).spawn_blinker 1 1).curr := by
  have hc6 := C6_blinker_period_two 5 5 (by decide) (by decide)
  refine ⟨?_, hc6.2.2⟩
  rw [hc6.2.1 2 0 (by decide) (by decide)]
  decide

theorem C8_seeding_or_semantics_witness :
    cellAt ((new 4 4).spawn [(1, 2), (5, 1)] 2 3) 3 1 = 1 ∧
    cellAt ((new 4 4).spawn_pattern_ascii 2 3 [ ".#".toList ] '#') 3 3 = 1 := by
  have h1 := C8_seeding_or_semantics (new 4 4) (by decide) (by decide) (by decide)
    [(1, 2), (5, 1)] [ ".#".toList ] '#' 2 3 3 1 (by decide) (by decide)
  have h2 := C8_seeding_or_semantics (new 4 4) (by decide) (by decide) (by decide)
    [(1, 2), (5, 1)] [ ".#".toList ] '#' 2 3 3 3 (by decide) (by decide)
  constructor
  · rw [h1.1]
    decide
  · rw [h2.2.2.1]
    decide

end GameOfLife
